import Mathlib

/-!
Shallow embedding of the Velo interpreter (`src/models.rs`, `src/sail.rs`).

Machine integers (`usize` for coordinates and velocity, `u32` for tape
cells, `u8` for input bytes) are modelled as `Nat`, with an explicit wrap
modulo `2 ^ w` exactly where Rust release-mode overflow can occur.
Standard input is modelled as a list of byte values threaded through the
step function; diagnostic printing (the `debug` / `trace` configuration)
only reads state and is therefore omitted from the state transition.
The potentially endless `while` loop of `sail` is modelled with explicit
fuel, and `runState` exposes the vessel state at each evaluation of the
loop condition.
-/

namespace Velo

/-- Rune (`src/models.rs`): the closed set of grid symbols. -/
inductive Rune where
  | ThrustUp
  | ThrustDown
  | ThrustLeft
  | ThrustRight
  | Parking
  | EntropyIncrease
  | EntropyDecrease
  | SteerLeft
  | SteerRight
  | Input
  | Output
  | Debug
  | Void
deriving DecidableEq

/-- Direction (`src/models.rs`): the vessel's heading; `None` is the
initial "no heading" sentinel. -/
inductive Direction where
  | Up
  | Down
  | Left
  | Right
  | None
deriving DecidableEq

/-- Rotation (`src/models.rs`): rotational change applied to a heading. -/
inductive Rotation where
  | Straight
  | Right
  | UTurn
  | Left
deriving DecidableEq

/-- Direction::to_i32. -/
def Direction.to_i32 : Direction → Int
  | .Up => 0
  | .Right => 1
  | .Down => 2
  | .Left => 3
  | .None => -1

/-- Direction::from_i32. -/
def Direction.from_i32 : Int → Direction
  | 0 => .Up
  | 1 => .Right
  | 2 => .Down
  | 3 => .Left
  | _ => .None

/-- Direction::consistent_with: plain equality test. -/
def Direction.consistent_with (a b : Direction) : Bool := a == b

/-- Direction::opposite_to. -/
def Direction.opposite_to : Direction → Direction → Bool
  | .Up, .Down => true
  | .Down, .Up => true
  | .Right, .Left => true
  | .Left, .Right => true
  | _, _ => false

/-- Rotation::to_i32. -/
def Rotation.to_i32 : Rotation → Int
  | .Straight => 0
  | .Right => 1
  | .UTurn => 2
  | .Left => 3

/-- Direction::rotate.  Rust `%` on `i32` truncates towards zero, which is
`Int.tmod` (so `Direction::None` with its index `-1` stays in the default
branch of `from_i32` for `Rotation::Straight`). -/
def Direction.rotate (d : Direction) (rotation : Rotation) : Direction :=
  Direction.from_i32 (Int.tmod (d.to_i32 + rotation.to_i32) 4)

/-- Cosmos (`src/models.rs`): the rune grid with its declared width and
height. -/
structure Cosmos where
  runes : List (List Rune)
  width : Nat
  height : Nat

/-- Cosmos::get: `Void` outside the stored rows and columns.  The row is
read with `getD` (Rust indexes `runes[y]` only after the `y >= height`
test; the well-formedness predicate below makes the two agree). -/
def Cosmos.get (c : Cosmos) (x y : Nat) : Rune :=
  if c.height ≤ y ∨ (c.runes.getD y []).length ≤ x then Rune.Void
  else (c.runes.getD y []).getD x Rune.Void

/-- Well-formedness established by `materialize_runes` in `src/main.rs`:
the height is the number of rows and the width is at least every row
length (it is the maximum row length). -/
def Cosmos.wf (c : Cosmos) : Prop :=
  c.height = c.runes.length ∧ ∀ row ∈ c.runes, row.length ≤ c.width

/-- Vec::resize_with(newLen, || 0): truncates to `newLen` when shrinking,
appends zeros when growing. -/
def resize_with_zero (l : List Nat) (newLen : Nat) : List Nat :=
  if newLen ≤ l.length then l.take newLen
  else l ++ List.replicate (newLen - l.length) 0

/-- Vessel (`src/models.rs`): position, heading, velocity (the resonance
frequency, doubling as the data pointer), and the data lattice (tape of
`u32` cells, modelled as naturals kept below `2 ^ 32`). -/
structure Vessel where
  x : Nat
  y : Nat
  direction : Direction
  velocity : Nat
  data_lattice : List Nat
deriving DecidableEq

/-- Vessel::new: heading and velocity come from the starting rune; the
lattice starts as 16 zero cells. -/
def Vessel.new (x y : Nat) (starting_rune : Rune) : Vessel :=
  let dv : Direction × Nat :=
    match starting_rune with
    | Rune.ThrustUp => (Direction.Up, 1)
    | Rune.ThrustDown => (Direction.Down, 1)
    | Rune.ThrustLeft => (Direction.Left, 1)
    | Rune.ThrustRight => (Direction.Right, 1)
    | _ => (Direction.None, 0)
  { x := x, y := y, direction := dv.1, velocity := dv.2,
    data_lattice := List.replicate 16 0 }

/-- Vessel::check_and_expand_data_lattice: when the pointer is at or past
the current length, resize the lattice to `velocity + 16`, zero-filling. -/
def Vessel.check_and_expand_data_lattice (v : Vessel) : Vessel :=
  if v.data_lattice.length ≤ v.velocity then
    { v with data_lattice := resize_with_zero v.data_lattice (v.velocity + 16) }
  else v

/-- Vessel::current_entropy: expand if needed, then read the cell at the
pointer (in range after expansion, so the `getD` default is never hit). -/
def Vessel.current_entropy (v : Vessel) : Nat × Vessel :=
  let v' := v.check_and_expand_data_lattice
  (v'.data_lattice.getD v'.velocity 0, v')

/-- Vessel::set_entropy_level: expand if needed, then write the cell at
the pointer. -/
def Vessel.set_entropy_level (v : Vessel) (new_entropy_level : Nat) : Vessel :=
  let v' := v.check_and_expand_data_lattice
  { v' with data_lattice := v'.data_lattice.set v'.velocity new_entropy_level }

/-- Vessel::is_stable: the current cell is exactly 0 (the read may expand
the lattice, so the updated vessel is returned too). -/
def Vessel.is_stable (v : Vessel) : Bool × Vessel :=
  let ev := v.current_entropy
  (ev.1 == 0, ev.2)

/-- Vessel::increase_velocity. -/
def Vessel.increase_velocity (v : Vessel) : Vessel :=
  { v with velocity := v.velocity + 1 }

/-- Vessel::decrease_velocity.  Source: `self.velocity -= 1` on `usize`,
with no checked subtraction.  With overflow checks disabled (the release
profile default) the subtraction wraps modulo `2 ^ 64`; for any
representable `usize` value this is `velocity - 1`, except at 0 where it
wraps to `2 ^ 64 - 1`. -/
def Vessel.decrease_velocity (v : Vessel) : Vessel :=
  { v with velocity := if v.velocity = 0 then 2 ^ 64 - 1 else v.velocity - 1 }

/-- Vessel::charge_entropy: current cell plus one; `u32` addition wraps
modulo `2 ^ 32` in release builds. -/
def Vessel.charge_entropy (v : Vessel) : Vessel :=
  let ev := v.current_entropy
  ev.2.set_entropy_level ((ev.1 + 1) % 2 ^ 32)

/-- Vessel::drain_entropy: decrement the current cell only when it is at
least 1 (the source reads the cell a second time inside the branch). -/
def Vessel.drain_entropy (v : Vessel) : Vessel :=
  let ev := v.current_entropy
  if 1 ≤ ev.1 then
    let ev2 := ev.2.current_entropy
    ev2.2.set_entropy_level (ev2.1 - 1)
  else ev.2

/-- Vessel::apply_parking: reset the velocity/pointer to 1. -/
def Vessel.apply_parking (v : Vessel) : Vessel :=
  { v with velocity := 1 }

/-- Vessel::turn_to. -/
def Vessel.turn_to (v : Vessel) (new_direction : Direction) : Vessel :=
  { v with direction := new_direction }

/-- Vessel::rotate_vessel. -/
def Vessel.rotate_vessel (v : Vessel) (rotation : Rotation) : Vessel :=
  { v with direction := v.direction.rotate rotation }

/-- Vessel::apply_directional_thrust: same direction increases the
velocity/pointer, opposite decreases it, otherwise turn to the rune's
direction leaving the velocity unchanged. -/
def Vessel.apply_directional_thrust (v : Vessel) (rune_direction : Direction) : Vessel :=
  if v.direction.consistent_with rune_direction then
    v.increase_velocity
  else if v.direction.opposite_to rune_direction then
    v.decrease_velocity
  else
    v.turn_to rune_direction

/-- Vessel::get_next_coordinate: project one unit along the heading;
fails when there is no heading, or when moving up from row 0 or left from
column 0. -/
def Vessel.get_next_coordinate (v : Vessel) : Except String (Nat × Nat) :=
  match v.direction with
  | Direction.Up =>
      if v.y < 1 then
        Except.error "y is less than 1, the vessel was going to travel out of the cosmos."
      else Except.ok (v.x, v.y - 1)
  | Direction.Down => Except.ok (v.x, v.y + 1)
  | Direction.Left =>
      if v.x < 1 then
        Except.error "x is less than 1, the vessel was going to travel out of the cosmos."
      else Except.ok (v.x - 1, v.y)
  | Direction.Right => Except.ok (v.x + 1, v.y)
  | Direction.None => Except.error "No direction."

/-- Vessel::move_to. -/
def Vessel.move_to (v : Vessel) (new_x new_y : Nat) : Vessel :=
  { v with x := new_x, y := new_y }

/-- Rune::act_on: the symbol effect table.  Input consumes one byte from
the modelled stdin (cell set to 0 at end of stream); Output reads the
current cell (which may expand the lattice) and emits it externally. -/
def Rune.act_on : Rune → Vessel → List Nat → Vessel × List Nat
  | Rune.ThrustUp, v, stdin => (v.apply_directional_thrust Direction.Up, stdin)
  | Rune.ThrustDown, v, stdin => (v.apply_directional_thrust Direction.Down, stdin)
  | Rune.ThrustLeft, v, stdin => (v.apply_directional_thrust Direction.Left, stdin)
  | Rune.ThrustRight, v, stdin => (v.apply_directional_thrust Direction.Right, stdin)
  | Rune.Parking, v, stdin => (v.apply_parking, stdin)
  | Rune.EntropyIncrease, v, stdin => (v.charge_entropy, stdin)
  | Rune.EntropyDecrease, v, stdin => (v.drain_entropy, stdin)
  | Rune.SteerLeft, v, stdin =>
      let sv := v.is_stable
      (if sv.1 then sv.2 else sv.2.rotate_vessel Rotation.Left, stdin)
  | Rune.SteerRight, v, stdin =>
      let sv := v.is_stable
      (if sv.1 then sv.2 else sv.2.rotate_vessel Rotation.Right, stdin)
  | Rune.Input, v, stdin =>
      match stdin with
      | [] => (v.set_entropy_level 0, [])
      | b :: rest => (v.set_entropy_level (b % 256), rest)
  | Rune.Output, v, stdin => ((v.current_entropy).2, stdin)
  | Rune.Debug, v, stdin => (v, stdin)
  | Rune.Void, v, stdin => (v, stdin)

/-- Vessel::impact_rune. -/
def Vessel.impact_rune (v : Vessel) (rune : Rune) (stdin : List Nat) : Vessel × List Nat :=
  rune.act_on v stdin

/-- Termination (`src/sail.rs`): the reason the run halted. -/
inductive Termination where
  | Stopped
  | NoSignal (x y : Nat)
  | NoInitialVelocityOrDirection
deriving DecidableEq

/-- One iteration of the `while` body of `sail` either halts the run or
produces the next vessel/stdin state. -/
inductive StepOutcome where
  | halted (t : Termination)
  | stepped (vessel : Vessel) (stdin : List Nat)
deriving DecidableEq

/-- The body of the `while` loop in `sail` (`src/sail.rs`): project the
next coordinate; on projection failure report the current position; on a
boundary overrun report the clamped candidate; otherwise read the rune at
the candidate, move there, and apply the rune. -/
def loopBody (cosmos : Cosmos) (vessel : Vessel) (stdin : List Nat) : StepOutcome :=
  match vessel.get_next_coordinate with
  | Except.ok (x, y) =>
      if cosmos.width ≤ x ∨ cosmos.height ≤ y then
        StepOutcome.halted
          (Termination.NoSignal (min x (cosmos.width - 1)) (min y (cosmos.height - 1)))
      else
        let rune := cosmos.get x y
        let next := (vessel.move_to x y).impact_rune rune stdin
        StepOutcome.stepped next.1 next.2
  | Except.error _ => StepOutcome.halted (Termination.NoSignal vessel.x vessel.y)

/-- One evaluation of the loop condition followed by at most one body
execution: `none` when the loop exits (velocity 0) or halts the run. -/
def stepOption (cosmos : Cosmos) (s : Vessel × List Nat) : Option (Vessel × List Nat) :=
  if 0 < s.1.velocity then
    match loopBody cosmos s.1 s.2 with
    | StepOutcome.halted _ => none
    | StepOutcome.stepped v stdin => some (v, stdin)
  else none

/-- The vessel/stdin state at the (n+1)-th evaluation of the loop
condition, when the loop runs that far. -/
def runState (cosmos : Cosmos) : Nat → Vessel × List Nat → Option (Vessel × List Nat)
  | 0, s => some s
  | n + 1, s => (stepOption cosmos s).bind (runState cosmos n)

/-- The `while` loop of `sail`, with fuel bounding the number of loop
condition evaluations; `none` means the fuel ran out first. -/
def sailLoop (cosmos : Cosmos) : Nat → Vessel → List Nat → Option Termination
  | 0, _, _ => none
  | fuel + 1, vessel, stdin =>
      if 0 < vessel.velocity then
        match loopBody cosmos vessel stdin with
        | StepOutcome.halted t => some t
        | StepOutcome.stepped v stdin2 => sailLoop cosmos fuel v stdin2
      else some Termination.Stopped

/-- sail (`src/sail.rs`): entry check, then the loop. -/
def sail (cosmos : Cosmos) (vessel : Vessel) (stdin : List Nat) (fuel : Nat) :
    Option Termination :=
  if vessel.velocity = 0 then some Termination.NoInitialVelocityOrDirection
  else sailLoop cosmos fuel vessel stdin

/-- Whether a rune is one of the four thrust runes. -/
def Rune.isThrust : Rune → Bool
  | Rune.ThrustUp => true
  | Rune.ThrustDown => true
  | Rune.ThrustLeft => true
  | Rune.ThrustRight => true
  | _ => false

/-- A 1x1 cosmos holding a single ThrustUp rune (scenario of an immediate
projection underflow). -/
def cosmosUp : Cosmos := { runes := [[Rune.ThrustUp]], width := 1, height := 1 }

/-- A 1x2 cosmos whose second rune undoes the initial thrust, so the run
stops after one step. -/
def cosmosRight : Cosmos :=
  { runes := [[Rune.ThrustRight, Rune.ThrustLeft]], width := 2, height := 1 }

/-- A 1x1 cosmos holding a single Void rune (no thrust at the origin). -/
def cosmosVoid : Cosmos := { runes := [[Rune.Void]], width := 1, height := 1 }

/-- A 1x2 cosmos starting with a thrust rune followed by a Void cell. -/
def cosmosRow : Cosmos :=
  { runes := [[Rune.ThrustRight, Rune.Void]], width := 2, height := 1 }

/-- A vessel whose pointer (20) is past the end of its 16-cell lattice,
as arises after repeated same-direction thrusts without a tape access. -/
def vesselTwenty : Vessel :=
  { x := 0, y := 0, direction := Direction.Right, velocity := 20,
    data_lattice := List.replicate 16 0 }

/-! Field-preservation lemmas for the vessel operations. -/

@[simp]
theorem check_and_expand_x (v : Vessel) : v.check_and_expand_data_lattice.x = v.x := by
  unfold Vessel.check_and_expand_data_lattice; split <;> rfl

@[simp]
theorem check_and_expand_y (v : Vessel) : v.check_and_expand_data_lattice.y = v.y := by
  unfold Vessel.check_and_expand_data_lattice; split <;> rfl

@[simp]
theorem check_and_expand_direction (v : Vessel) :
    v.check_and_expand_data_lattice.direction = v.direction := by
  unfold Vessel.check_and_expand_data_lattice; split <;> rfl

@[simp]
theorem check_and_expand_velocity (v : Vessel) :
    v.check_and_expand_data_lattice.velocity = v.velocity := by
  unfold Vessel.check_and_expand_data_lattice; split <;> rfl

@[simp]
theorem current_entropy_snd (v : Vessel) :
    v.current_entropy.2 = v.check_and_expand_data_lattice := rfl

@[simp]
theorem is_stable_snd (v : Vessel) :
    v.is_stable.2 = v.check_and_expand_data_lattice := rfl

theorem is_stable_fst (v : Vessel) :
    v.is_stable.1 = (v.current_entropy.1 == 0) := rfl

@[simp]
theorem set_entropy_level_x (v : Vessel) (n : Nat) :
    (v.set_entropy_level n).x = v.x := by
  unfold Vessel.set_entropy_level; simp

@[simp]
theorem set_entropy_level_y (v : Vessel) (n : Nat) :
    (v.set_entropy_level n).y = v.y := by
  unfold Vessel.set_entropy_level; simp

@[simp]
theorem set_entropy_level_direction (v : Vessel) (n : Nat) :
    (v.set_entropy_level n).direction = v.direction := by
  unfold Vessel.set_entropy_level; simp

@[simp]
theorem set_entropy_level_velocity (v : Vessel) (n : Nat) :
    (v.set_entropy_level n).velocity = v.velocity := by
  unfold Vessel.set_entropy_level; simp

@[simp]
theorem charge_entropy_x (v : Vessel) : v.charge_entropy.x = v.x := by
  unfold Vessel.charge_entropy; simp

@[simp]
theorem charge_entropy_y (v : Vessel) : v.charge_entropy.y = v.y := by
  unfold Vessel.charge_entropy; simp

@[simp]
theorem charge_entropy_direction (v : Vessel) :
    v.charge_entropy.direction = v.direction := by
  unfold Vessel.charge_entropy; simp

@[simp]
theorem drain_entropy_x (v : Vessel) : v.drain_entropy.x = v.x := by
  unfold Vessel.drain_entropy; dsimp only; split <;> simp

@[simp]
theorem drain_entropy_y (v : Vessel) : v.drain_entropy.y = v.y := by
  unfold Vessel.drain_entropy; dsimp only; split <;> simp

@[simp]
theorem drain_entropy_direction (v : Vessel) :
    v.drain_entropy.direction = v.direction := by
  unfold Vessel.drain_entropy; dsimp only; split <;> simp

@[simp]
theorem apply_parking_x (v : Vessel) : v.apply_parking.x = v.x := rfl

@[simp]
theorem apply_parking_y (v : Vessel) : v.apply_parking.y = v.y := rfl

@[simp]
theorem apply_parking_direction (v : Vessel) :
    v.apply_parking.direction = v.direction := rfl

@[simp]
theorem increase_velocity_x (v : Vessel) : v.increase_velocity.x = v.x := rfl

@[simp]
theorem increase_velocity_y (v : Vessel) : v.increase_velocity.y = v.y := rfl

@[simp]
theorem increase_velocity_direction (v : Vessel) :
    v.increase_velocity.direction = v.direction := rfl

@[simp]
theorem decrease_velocity_x (v : Vessel) : v.decrease_velocity.x = v.x := rfl

@[simp]
theorem decrease_velocity_y (v : Vessel) : v.decrease_velocity.y = v.y := rfl

@[simp]
theorem decrease_velocity_direction (v : Vessel) :
    v.decrease_velocity.direction = v.direction := rfl

@[simp]
theorem turn_to_x (v : Vessel) (d : Direction) : (v.turn_to d).x = v.x := rfl

@[simp]
theorem turn_to_y (v : Vessel) (d : Direction) : (v.turn_to d).y = v.y := rfl

@[simp]
theorem turn_to_direction (v : Vessel) (d : Direction) :
    (v.turn_to d).direction = d := rfl

@[simp]
theorem rotate_vessel_x (v : Vessel) (r : Rotation) : (v.rotate_vessel r).x = v.x := rfl

@[simp]
theorem rotate_vessel_y (v : Vessel) (r : Rotation) : (v.rotate_vessel r).y = v.y := rfl

@[simp]
theorem rotate_vessel_direction (v : Vessel) (r : Rotation) :
    (v.rotate_vessel r).direction = v.direction.rotate r := rfl

@[simp]
theorem move_to_x (v : Vessel) (a b : Nat) : (v.move_to a b).x = a := rfl

@[simp]
theorem move_to_y (v : Vessel) (a b : Nat) : (v.move_to a b).y = b := rfl

@[simp]
theorem move_to_direction (v : Vessel) (a b : Nat) :
    (v.move_to a b).direction = v.direction := rfl

@[simp]
theorem apply_directional_thrust_x (v : Vessel) (d : Direction) :
    (v.apply_directional_thrust d).x = v.x := by
  unfold Vessel.apply_directional_thrust; split <;> [skip; split] <;> simp

@[simp]
theorem apply_directional_thrust_y (v : Vessel) (d : Direction) :
    (v.apply_directional_thrust d).y = v.y := by
  unfold Vessel.apply_directional_thrust; split <;> [skip; split] <;> simp

/-- Every rune effect leaves the vessel's position unchanged: position only
moves via `move_to` in the loop. -/
theorem act_on_x (r : Rune) (v : Vessel) (stdin : List Nat) :
    ((r.act_on v stdin).1).x = v.x := by
  cases r <;> simp [Rune.act_on]
  · split <;> simp
  · split <;> simp
  · cases stdin <;> simp

theorem act_on_y (r : Rune) (v : Vessel) (stdin : List Nat) :
    ((r.act_on v stdin).1).y = v.y := by
  cases r <;> simp [Rune.act_on]
  · split <;> simp
  · split <;> simp
  · cases stdin <;> simp

/-! Heading lemmas. -/

/-- Rotating a concrete compass heading never produces the `None`
sentinel (the cyclic index stays in 0..3). -/
theorem rotate_ne_none (d : Direction) (rot : Rotation) (hd : d ≠ Direction.None) :
    d.rotate rot ≠ Direction.None := by
  cases d with
  | None => exact absurd rfl hd
  | Up => cases rot <;> decide
  | Down => cases rot <;> decide
  | Left => cases rot <;> decide
  | Right => cases rot <;> decide

theorem apply_directional_thrust_direction_ne_none (v : Vessel) (d : Direction)
    (hd : d ≠ Direction.None) (hv : v.direction ≠ Direction.None) :
    (v.apply_directional_thrust d).direction ≠ Direction.None := by
  unfold Vessel.apply_directional_thrust
  split
  · simpa using hv
  · split
    · simpa using hv
    · simpa using hd

/-- No rune effect ever sets the heading back to `None`. -/
theorem act_on_direction_ne_none (r : Rune) (v : Vessel) (stdin : List Nat)
    (hv : v.direction ≠ Direction.None) :
    ((r.act_on v stdin).1).direction ≠ Direction.None := by
  cases r <;> simp [Rune.act_on]
  case ThrustUp => exact apply_directional_thrust_direction_ne_none v _ (by decide) hv
  case ThrustDown => exact apply_directional_thrust_direction_ne_none v _ (by decide) hv
  case ThrustLeft => exact apply_directional_thrust_direction_ne_none v _ (by decide) hv
  case ThrustRight => exact apply_directional_thrust_direction_ne_none v _ (by decide) hv
  case Parking => exact hv
  case EntropyIncrease => exact hv
  case EntropyDecrease => exact hv
  case SteerLeft =>
    split
    · simpa using hv
    · simpa using rotate_ne_none v.direction Rotation.Left hv
  case SteerRight =>
    split
    · simpa using hv
    · simpa using rotate_ne_none v.direction Rotation.Right hv
  case Input => cases stdin <;> simpa using hv
  case Output => exact hv
  case Debug => exact hv
  case Void => exact hv

/-- The projection fails exactly when there is no heading, or the move
would subtract from a coordinate that is already 0. -/
theorem get_next_coordinate_error_iff (v : Vessel) :
    (∃ e, v.get_next_coordinate = Except.error e) ↔
      (v.direction = Direction.None ∨ (v.direction = Direction.Up ∧ v.y = 0) ∨
        (v.direction = Direction.Left ∧ v.x = 0)) := by
  unfold Vessel.get_next_coordinate
  cases h : v.direction <;> simp [Nat.lt_one_iff]
  · split <;> simp_all
  · split <;> simp_all

/-! Loop lemmas. -/

/-- The loop body halts only with a `NoSignal` outcome: either the
projection failed (current coordinates reported) or the candidate failed
the boundary check (clamped candidate reported). -/
theorem loopBody_halted_elim (c : Cosmos) (v : Vessel) (stdin : List Nat)
    (t : Termination) (h : loopBody c v stdin = StepOutcome.halted t) :
    ((∃ e, v.get_next_coordinate = Except.error e) ∧ t = Termination.NoSignal v.x v.y) ∨
      (∃ x y, v.get_next_coordinate = Except.ok (x, y) ∧
        (c.width ≤ x ∨ c.height ≤ y) ∧
        t = Termination.NoSignal (min x (c.width - 1)) (min y (c.height - 1))) := by
  unfold loopBody at h
  split at h
  next x y heq =>
      split at h
      next hb =>
          injection h with h1
          exact Or.inr ⟨x, y, heq, hb, h1.symm⟩
      next hb => exact absurd h (by simp)
  next e heq =>
      injection h with h1
      exact Or.inl ⟨⟨e, heq⟩, h1.symm⟩

/-- When the loop body executes a step, the candidate coordinate passed
the boundary check, the vessel moved exactly there, and the rune applied
is the one at that in-bounds coordinate. -/
theorem loopBody_stepped_elim (c : Cosmos) (v : Vessel) (stdin : List Nat)
    (v' : Vessel) (stdin' : List Nat)
    (h : loopBody c v stdin = StepOutcome.stepped v' stdin') :
    ∃ x y, v.get_next_coordinate = Except.ok (x, y) ∧
      x < c.width ∧ y < c.height ∧
      (v', stdin') = (v.move_to x y).impact_rune (c.get x y) stdin ∧
      v'.x = x ∧ v'.y = y := by
  unfold loopBody at h
  split at h
  next x y heq =>
      split at h
      next hb => exact absurd h (by simp)
      next hb =>
          push_neg at hb
          simp only at h
          have hpair : (v', stdin') = (v.move_to x y).impact_rune (c.get x y) stdin := by
            injection h with h1 h2
            rw [Prod.ext_iff]
            exact ⟨h1.symm, h2.symm⟩
          have hx : v'.x = x := by
            have hcong := congrArg (fun p => p.1.x) hpair
            simpa [Vessel.impact_rune, act_on_x] using hcong
          have hy : v'.y = y := by
            have hcong := congrArg (fun p => p.1.y) hpair
            simpa [Vessel.impact_rune, act_on_y] using hcong
          exact ⟨x, y, heq, hb.1, hb.2, hpair, hx, hy⟩
  next e heq => exact absurd h (by simp)

@[simp]
theorem runState_zero (c : Cosmos) (s : Vessel × List Nat) :
    runState c 0 s = some s := rfl

theorem runState_succ_front (c : Cosmos) (n : Nat) (s : Vessel × List Nat) :
    runState c (n + 1) s = (stepOption c s).bind (runState c n) := rfl

/-- Peeling the last step of the iterated loop instead of the first. -/
theorem runState_succ_back (c : Cosmos) (n : Nat) (s : Vessel × List Nat) :
    runState c (n + 1) s = (runState c n s).bind (stepOption c) := by
  induction n generalizing s with
  | zero =>
      rw [runState_succ_front]
      cases h : stepOption c s <;> simp [h]
  | succ n ih =>
      rw [runState_succ_front, runState_succ_front]
      cases h : stepOption c s with
      | none => rfl
      | some s1 => simp only [Option.some_bind]; exact ih s1

/-- Every halting result of the fuelled loop is produced at a reachable
loop-condition state: either the condition failed (velocity 0, result
`Stopped`) or the body halted there. -/
theorem sailLoop_eq_some (c : Cosmos) (fuel : Nat) (v : Vessel) (stdin : List Nat)
    (t : Termination) (h : sailLoop c fuel v stdin = some t) :
    (∃ n v' stdin', runState c n (v, stdin) = some (v', stdin') ∧
        v'.velocity = 0 ∧ t = Termination.Stopped) ∨
    (∃ n v' stdin', runState c n (v, stdin) = some (v', stdin') ∧
        0 < v'.velocity ∧ loopBody c v' stdin' = StepOutcome.halted t) := by
  induction fuel generalizing v stdin with
  | zero => exact absurd h (by simp [sailLoop])
  | succ fuel ih =>
      rw [sailLoop] at h
      by_cases hv : 0 < v.velocity
      · rw [if_pos hv] at h
        cases hb : loopBody c v stdin with
        | halted t' =>
            rw [hb] at h
            refine Or.inr ⟨0, v, stdin, rfl, hv, ?_⟩
            rw [hb, Option.some_inj.mp h]
        | stepped v1 stdin1 =>
            rw [hb] at h
            have hstep : stepOption c (v, stdin) = some (v1, stdin1) := by
              simp [stepOption, hv, hb]
            rcases ih v1 stdin1 h with ⟨n, v', stdin', hr, hrest⟩ | ⟨n, v', stdin', hr, hrest⟩
            · exact Or.inl ⟨n + 1, v', stdin',
                by rw [runState_succ_front, hstep, Option.some_bind]; exact hr, hrest⟩
            · exact Or.inr ⟨n + 1, v', stdin',
                by rw [runState_succ_front, hstep, Option.some_bind]; exact hr, hrest⟩
      · rw [if_neg hv] at h
        exact Or.inl ⟨0, v, stdin, rfl, Nat.eq_zero_of_not_pos hv, (Option.some_inj.mp h).symm⟩

/-- With a thrust rune at the origin the fresh vessel has velocity 1 and a
compass heading; with anything else velocity 0 and no heading. -/
theorem new_velocity_pos_direction (x y : Nat) (r : Rune)
    (h : 0 < (Vessel.new x y r).velocity) :
    (Vessel.new x y r).direction ≠ Direction.None := by
  cases r <;> simp [Vessel.new] at h ⊢

/-- In a well-formed cosmos, any coordinate holding a rune other than
`Void` lies inside the grid. -/
theorem get_ne_void_in_bounds (c : Cosmos) (hwf : c.wf) (x y : Nat)
    (h : c.get x y ≠ Rune.Void) : x < c.width ∧ y < c.height := by
  unfold Cosmos.get at h
  by_cases hb : c.height ≤ y ∨ (c.runes.getD y []).length ≤ x
  · exact absurd (if_pos hb) h
  · push_neg at hb
    refine ⟨lt_of_lt_of_le hb.2 ?_, hb.1⟩
    have hy : y < c.runes.length := hwf.1 ▸ hb.1
    have hmem : c.runes.getD y [] ∈ c.runes := by
      rw [List.getD_eq_getElem?_getD, List.getElem?_eq_getElem hy]
      exact List.getElem_mem ..
    exact hwf.2 _ hmem

/-- Position invariant of the loop: once the position is inside the grid,
it stays inside at every reachable loop-condition state. -/
theorem runState_pos_in_bounds (c : Cosmos) (n : Nat) (v : Vessel) (stdin : List Nat)
    (s : Vessel × List Nat) (hx : v.x < c.width) (hy : v.y < c.height)
    (h : runState c n (v, stdin) = some s) : s.1.x < c.width ∧ s.1.y < c.height := by
  induction n generalizing v stdin with
  | zero => cases Option.some_inj.mp h; exact ⟨hx, hy⟩
  | succ n ih =>
      rw [runState_succ_front] at h
      cases hs : stepOption c (v, stdin) with
      | none => rw [hs] at h; exact absurd h (by simp)
      | some s1 =>
          rw [hs, Option.some_bind] at h
          unfold stepOption at hs
          by_cases hv : 0 < v.velocity
          · rw [if_pos hv] at hs
            cases hb : loopBody c v stdin with
            | halted t => rw [hb] at hs; exact absurd hs (by simp)
            | stepped v1 stdin1 =>
                rw [hb] at hs
                cases Option.some_inj.mp hs
                obtain ⟨a, b, _, ha, hbnd, _, hva, hvb⟩ :=
                  loopBody_stepped_elim c v stdin v1 stdin1 hb
                exact ih v1 stdin1 (hva ▸ ha) (hvb ▸ hbnd) h
          · rw [if_neg hv] at hs; exact absurd hs (by simp)

/-- The heading invariant of the loop: a compass heading is never lost. -/
theorem runState_direction_ne_none (c : Cosmos) (n : Nat) (v : Vessel)
    (stdin : List Nat) (s : Vessel × List Nat) (hd : v.direction ≠ Direction.None)
    (h : runState c n (v, stdin) = some s) : s.1.direction ≠ Direction.None := by
  induction n generalizing v stdin with
  | zero => cases Option.some_inj.mp h; exact hd
  | succ n ih =>
      rw [runState_succ_front] at h
      cases hs : stepOption c (v, stdin) with
      | none => rw [hs] at h; exact absurd h (by simp)
      | some s1 =>
          rw [hs, Option.some_bind] at h
          unfold stepOption at hs
          by_cases hv : 0 < v.velocity
          · rw [if_pos hv] at hs
            cases hb : loopBody c v stdin with
            | halted t => rw [hb] at hs; exact absurd hs (by simp)
            | stepped v1 stdin1 =>
                rw [hb] at hs
                cases Option.some_inj.mp hs
                obtain ⟨a, b, _, _, _, heq, _, _⟩ :=
                  loopBody_stepped_elim c v stdin v1 stdin1 hb
                have hv1 : v1.direction ≠ Direction.None := by
                  have : v1 = ((v.move_to a b).impact_rune (c.get a b) stdin).1 := by
                    rw [← heq]
                  rw [this, Vessel.impact_rune]
                  exact act_on_direction_ne_none _ _ _ (by simpa using hd)
                exact ih v1 stdin1 hv1 h
          · rw [if_neg hv] at hs; exact absurd hs (by simp)

/-! Claim theorems. -/

/-- C1: the claim requires the opposite-direction decrement at pointer 0
to fail explicitly through a checked subtraction; the source instead runs
the unchecked `self.velocity -= 1`, which in release builds wraps the
pointer around to `2 ^ 64 - 1` when an opposite-direction thrust hits a
vessel whose pointer is 0 (and only panics under debug overflow checks —
never a checked subtraction). -/
theorem thrust_at_zero_pointer_wraps :
    (Vessel.apply_directional_thrust
        { x := 0, y := 0, direction := Direction.Up, velocity := 0,
          data_lattice := List.replicate 16 0 } Direction.Down).velocity
      = 2 ^ 64 - 1 := by
  decide

/-- C2: for a run past the entry check, at every evaluation of the loop
condition the pointer is at least 1, or it is 0 and the loop terminates
`Stopped` right there — no further step is attempted from a zero-pointer
state — and conversely `Stopped` is only ever produced at a reached
zero-pointer loop-condition state. -/
theorem loop_pointer_positive_or_stopped (c : Cosmos) (v : Vessel)
    (stdin : List Nat) (_hentry : 0 < v.velocity) :
    (∀ n v' stdin', runState c n (v, stdin) = some (v', stdin') →
        0 < v'.velocity ∨
          (v'.velocity = 0 ∧ runState c (n + 1) (v, stdin) = none ∧
            ∀ fuel, sailLoop c (fuel + 1) v' stdin' = some Termination.Stopped)) ∧
    (∀ fuel, sailLoop c fuel v stdin = some Termination.Stopped →
        ∃ n v' stdin', runState c n (v, stdin) = some (v', stdin') ∧
          v'.velocity = 0) := by
  constructor
  · intro n v' stdin' h
    rcases Nat.eq_zero_or_pos v'.velocity with h0 | hp
    · refine Or.inr ⟨h0, ?_, ?_⟩
      · rw [runState_succ_back, h, Option.some_bind]
        simp [stepOption, h0]
      · intro fuel
        simp [sailLoop, h0]
    · exact Or.inl hp
  · intro fuel h
    rcases sailLoop_eq_some c fuel v stdin _ h with
      ⟨n, v', stdin', hr, h0, _⟩ | ⟨n, v', stdin', hr, hp, hb⟩
    · exact ⟨n, v', stdin', hr, h0⟩
    · rcases loopBody_halted_elim c v' stdin' _ hb with ⟨_, ht⟩ | ⟨x, y, _, _, ht⟩ <;>
        exact absurd ht (by simp)

/-- C2 witness: a two-cell row whose second rune is the opposite thrust;
the run stops with the pointer at 0 after one step. -/
theorem loop_pointer_positive_or_stopped_witness :
    ∃ n v' stdin',
      runState cosmosRight n (Vessel.new 0 0 Rune.ThrustRight, []) = some (v', stdin') ∧
      v'.velocity = 0 :=
  (loop_pointer_positive_or_stopped cosmosRight (Vessel.new 0 0 Rune.ThrustRight) []
      (by decide)).2 2 (by decide)

/-- C3: classification of a directional thrust against the current
heading: the same direction increments the pointer by 1, the exactly
opposite direction decrements it by 1 (stated for a positive pointer —
the pointer-0 edge is the unchecked-subtraction defect), and any other
pair — perpendicular, or no heading yet — adopts the rune's direction and
leaves the pointer untouched; the three cases cover every pair. -/
theorem directional_thrust_classification (v : Vessel) (d : Direction)
    (hd : d ≠ Direction.None) :
    (v.direction = d →
        v.apply_directional_thrust d = { v with velocity := v.velocity + 1 }) ∧
    (v.direction.opposite_to d = true → 0 < v.velocity →
        v.apply_directional_thrust d = { v with velocity := v.velocity - 1 }) ∧
    (v.direction ≠ d → v.direction.opposite_to d = false →
        v.apply_directional_thrust d = { v with direction := d }) ∧
    (v.direction = d ∨ v.direction.opposite_to d = true ∨
        (v.direction ≠ d ∧ v.direction.opposite_to d = false)) := by
  refine ⟨?_, ?_, ?_, ?_⟩
  · intro h
    simp [Vessel.apply_directional_thrust, Direction.consistent_with, h,
      Vessel.increase_velocity]
  · intro hop hv
    have hne : v.direction ≠ d := by
      intro heq
      rw [heq] at hop
      cases d <;> simp [Direction.opposite_to] at hop
    have h0 : ¬v.velocity = 0 := Nat.pos_iff_ne_zero.mp hv
    simp [Vessel.apply_directional_thrust, Direction.consistent_with, hne, hop,
      Vessel.decrease_velocity, h0]
  · intro hne hop
    simp [Vessel.apply_directional_thrust, Direction.consistent_with, hne, hop,
      Vessel.turn_to]
  · by_cases h1 : v.direction = d
    · exact Or.inl h1
    · by_cases h2 : v.direction.opposite_to d = true
      · exact Or.inr (Or.inl h2)
      · exact Or.inr (Or.inr ⟨h1, by simpa using h2⟩)

/-- C3 witness: a perpendicular thrust on a fresh rightward vessel adopts
the rune's direction and leaves the pointer alone. -/
theorem directional_thrust_classification_witness :
    Vessel.apply_directional_thrust (Vessel.new 0 0 Rune.ThrustRight) Direction.Up
      = { Vessel.new 0 0 Rune.ThrustRight with direction := Direction.Up } :=
  (directional_thrust_classification (Vessel.new 0 0 Rune.ThrustRight) Direction.Up
      (by decide)).2.2.1 (by decide) (by decide)

/-- C6: when the origin rune is not one of the four thrust runes, the
fresh vessel's pointer is 0 and the run reports
`NoInitialVelocityOrDirection` with any fuel — even fuel 0, so no loop
step (no move, no rune effect, no tape change) is ever attempted. -/
theorem no_start_without_thrust (c : Cosmos) (stdin : List Nat) (fuel : Nat)
    (h : (c.get 0 0).isThrust = false) :
    (Vessel.new 0 0 (c.get 0 0)).velocity = 0 ∧
    sail c (Vessel.new 0 0 (c.get 0 0)) stdin fuel
      = some Termination.NoInitialVelocityOrDirection := by
  have h0 : (Vessel.new 0 0 (c.get 0 0)).velocity = 0 := by
    cases hr : c.get 0 0 <;> simp_all [Rune.isThrust, Vessel.new]
  exact ⟨h0, by simp [sail, h0]⟩

/-- C6 witness: a 1x1 cosmos holding a Void rune never starts. -/
theorem no_start_without_thrust_witness :
    (Vessel.new 0 0 (cosmosVoid.get 0 0)).velocity = 0 ∧
    sail cosmosVoid (Vessel.new 0 0 (cosmosVoid.get 0 0)) [] 0
      = some Termination.NoInitialVelocityOrDirection :=
  no_start_without_thrust cosmosVoid [] 0 (by decide)

/-- C4: in every run from the grid origin that passes the entry check (so
the origin holds a thrust rune and is, by well-formedness, in bounds),
the agent's position at every evaluation of the loop condition lies
inside the grid, and whenever the body executes a step on that state the
rune applied is the one at the projected candidate — which the body has
already boundary-checked, so its coordinates are below width and
height. -/
theorem boundary_check_before_symbol (c : Cosmos) (hwf : c.wf) (stdin : List Nat)
    (n : Nat) (s : Vessel × List Nat)
    (hentry : 0 < (Vessel.new 0 0 (c.get 0 0)).velocity)
    (hrun : runState c n (Vessel.new 0 0 (c.get 0 0), stdin) = some s) :
    (s.1.x < c.width ∧ s.1.y < c.height) ∧
    ∀ v' stdin', loopBody c s.1 s.2 = StepOutcome.stepped v' stdin' →
      s.1.get_next_coordinate = Except.ok (v'.x, v'.y) ∧
      v'.x < c.width ∧ v'.y < c.height := by
  have hthrust : c.get 0 0 ≠ Rune.Void := by
    intro hv
    rw [hv] at hentry
    simp [Vessel.new] at hentry
  have hb := get_ne_void_in_bounds c hwf 0 0 hthrust
  have hpos := runState_pos_in_bounds c n (Vessel.new 0 0 (c.get 0 0)) stdin s
    (by simpa [Vessel.new] using hb.1) (by simpa [Vessel.new] using hb.2) hrun
  refine ⟨hpos, ?_⟩
  intro v' stdin' hstep
  obtain ⟨x, y, hok, hxw, hyh, _, hx, hy⟩ :=
    loopBody_stepped_elim c s.1 s.2 v' stdin' hstep
  rw [hx, hy]
  exact ⟨hok, hxw, hyh⟩

/-- C4 witness: a thrust-then-void row; at the first loop-condition state
the agent sits inside the grid. -/
theorem boundary_check_before_symbol_witness :
    (Vessel.new 0 0 (cosmosRow.get 0 0)).x < cosmosRow.width ∧
    (Vessel.new 0 0 (cosmosRow.get 0 0)).y < cosmosRow.height :=
  (boundary_check_before_symbol cosmosRow (by constructor <;> decide) [] 0
      (Vessel.new 0 0 (cosmosRow.get 0 0), []) (by decide) rfl).1

/-- C5: whenever the loop halts with `NoSignal` (OutOfBounds), the halt
happens at a reached loop-condition state with a positive pointer, and
the reported coordinate is the agent's current position when the
projection itself failed (no heading, or moving up from row 0 / left
from column 0), and otherwise the clamped candidate
`(min x (width - 1), min y (height - 1))` after the candidate failed the
boundary check — never the raw out-of-range pair. -/
theorem out_of_bounds_report (c : Cosmos) (v : Vessel) (stdin : List Nat)
    (fuel x0 y0 : Nat)
    (h : sailLoop c fuel v stdin = some (Termination.NoSignal x0 y0)) :
    ∃ n v' stdin', runState c n (v, stdin) = some (v', stdin') ∧ 0 < v'.velocity ∧
      (((v'.direction = Direction.None ∨ (v'.direction = Direction.Up ∧ v'.y = 0) ∨
            (v'.direction = Direction.Left ∧ v'.x = 0)) ∧
          x0 = v'.x ∧ y0 = v'.y) ∨
        (∃ x y, v'.get_next_coordinate = Except.ok (x, y) ∧
          (c.width ≤ x ∨ c.height ≤ y) ∧
          x0 = min x (c.width - 1) ∧ y0 = min y (c.height - 1))) := by
  rcases sailLoop_eq_some c fuel v stdin _ h with
    ⟨n, v', stdin', hr, h0, ht⟩ | ⟨n, v', stdin', hr, hp, hb⟩
  · exact absurd ht (by simp)
  · rcases loopBody_halted_elim c v' stdin' _ hb with ⟨⟨e, he⟩, ht⟩ | ⟨x, y, hok, hbnd, ht⟩
    · injection ht with hx hy
      refine ⟨n, v', stdin', hr, hp, Or.inl ⟨?_, hx, hy⟩⟩
      exact (get_next_coordinate_error_iff v').mp ⟨e, he⟩
    · injection ht with hx hy
      exact ⟨n, v', stdin', hr, hp, Or.inr ⟨x, y, hok, hbnd, hx, hy⟩⟩

/-- C5 witness: a 1x1 grid holding ThrustUp; the first step projects up
from row 0, so the run reports the current position (0, 0). -/
theorem out_of_bounds_report_witness :
    ∃ n v' stdin',
      runState cosmosUp n (Vessel.new 0 0 Rune.ThrustUp, []) = some (v', stdin') ∧
      0 < v'.velocity ∧
      (((v'.direction = Direction.None ∨ (v'.direction = Direction.Up ∧ v'.y = 0) ∨
            (v'.direction = Direction.Left ∧ v'.x = 0)) ∧
          0 = v'.x ∧ 0 = v'.y) ∨
        (∃ x y, v'.get_next_coordinate = Except.ok (x, y) ∧
          (cosmosUp.width ≤ x ∨ cosmosUp.height ≤ y) ∧
          0 = min x (cosmosUp.width - 1) ∧ 0 = min y (cosmosUp.height - 1))) :=
  out_of_bounds_report cosmosUp (Vessel.new 0 0 Rune.ThrustUp) [] 1 0 0 (by decide)

/-- C8: SteerLeft / SteerRight change the heading exactly when the
current cell is nonzero, applying the source's 90-degree cyclic rotation
to the left / right; a zero cell leaves the heading unchanged, for both
runes. -/
theorem steer_rotates_iff_unstable (v : Vessel) (stdin : List Nat) :
    ((Rune.SteerLeft.act_on v stdin).1).direction
      = (if (v.current_entropy).1 = 0 then v.direction
         else v.direction.rotate Rotation.Left) ∧
    ((Rune.SteerRight.act_on v stdin).1).direction
      = (if (v.current_entropy).1 = 0 then v.direction
         else v.direction.rotate Rotation.Right) := by
  constructor <;>
  · simp only [Rune.act_on, is_stable_fst, is_stable_snd]
    by_cases h : (v.current_entropy).1 = 0 <;> simp [h]

/-- C9: past the entry check the heading is a concrete compass direction
at every loop-condition state — no operation resets it to `None` — so
the only way the projection can fail inside the loop is edge underflow:
moving up from row 0 or left from column 0. -/
theorem heading_never_none (c : Cosmos) (stdin : List Nat) (n : Nat)
    (s : Vessel × List Nat)
    (hentry : 0 < (Vessel.new 0 0 (c.get 0 0)).velocity)
    (hrun : runState c n (Vessel.new 0 0 (c.get 0 0), stdin) = some s) :
    s.1.direction ≠ Direction.None ∧
    ∀ e, s.1.get_next_coordinate = Except.error e →
      (s.1.direction = Direction.Up ∧ s.1.y = 0) ∨
      (s.1.direction = Direction.Left ∧ s.1.x = 0) := by
  have hd0 := new_velocity_pos_direction 0 0 (c.get 0 0) hentry
  have hd := runState_direction_ne_none c n _ stdin s hd0 hrun
  refine ⟨hd, ?_⟩
  intro e he
  rcases (get_next_coordinate_error_iff s.1).mp ⟨e, he⟩ with h | h | h
  · exact absurd h hd
  · exact Or.inl h
  · exact Or.inr h

/-- Reading any index at or past the original length of a zero-padded
list yields 0 (either a padded cell or the out-of-range default). -/
theorem getD_append_replicate_zero (l : List Nat) (k i : Nat) (h : l.length ≤ i) :
    (l ++ List.replicate k 0).getD i 0 = 0 := by
  rw [List.getD_eq_getElem?_getD, List.getElem?_append_right h, List.getElem?_replicate]
  split <;> rfl

/-- The lattice after the growth check: the old cells followed by exactly
`velocity + 16 - length` fresh zero cells when the pointer is at or past
the length, and unchanged otherwise. -/
theorem check_and_expand_lattice (v : Vessel) :
    v.check_and_expand_data_lattice.data_lattice
      = v.data_lattice ++
          List.replicate
            (if v.data_lattice.length ≤ v.velocity then
              v.velocity + 16 - v.data_lattice.length
            else 0) 0 := by
  by_cases h : v.data_lattice.length ≤ v.velocity
  · simp only [Vessel.check_and_expand_data_lattice, resize_with_zero, if_pos h]
    rw [if_neg (by omega)]
  · simp [Vessel.check_and_expand_data_lattice, h]

/-- The expanded vessel as a record when growth fires. -/
theorem check_and_expand_eq_of_le (v : Vessel) (h : v.data_lattice.length ≤ v.velocity) :
    v.check_and_expand_data_lattice
      = { v with data_lattice :=
            v.data_lattice ++
              List.replicate (v.velocity + 16 - v.data_lattice.length) 0 } := by
  simp only [Vessel.check_and_expand_data_lattice, resize_with_zero, if_pos h]
  rw [if_neg (by omega)]

/-- C7 counterexample: (a) a write access at pointer 1 changes cell 1,
which lies below the previous length 16, so not every cell below the
previous length keeps its prior value after an access; (b) a read access
at pointer 20 on a 16-cell lattice grows it to 36 cells — a growth of 20,
which is not a block of 16. -/
theorem tape_claim_counterexample :
    ((Vessel.new 0 0 Rune.ThrustRight).data_lattice.getD 1 0 = 0 ∧
      1 < (Vessel.new 0 0 Rune.ThrustRight).data_lattice.length ∧
      ((Vessel.new 0 0 Rune.ThrustRight).set_entropy_level 5).data_lattice.getD 1 0 = 5) ∧
    (vesselTwenty.data_lattice.length = 16 ∧
      ((vesselTwenty.current_entropy).2).data_lattice.length = 36 ∧
      (36 - 16) % 16 ≠ 0) := by
  decide

/-- C7 amended: the tape starts as 16 zero cells; after any access at
pointer p (read via `current_entropy` or write via `set_entropy_level`)
the tape is strictly longer than p; a read keeps every old cell in place
and, exactly when p is at or past the old length, appends
`p + 16 - length` zero cells (so the tape grows to exactly `p + 16`
cells — at least 16 new cells, exactly 16 only when p equals the old
length); a write does the same growth and then updates only the cell at
index p. -/
theorem tape_access_growth (v : Vessel) (n px py : Nat) (r : Rune) :
    (Vessel.new px py r).data_lattice = List.replicate 16 0 ∧
    v.velocity < ((v.current_entropy).2).data_lattice.length ∧
    v.velocity < (v.set_entropy_level n).data_lattice.length ∧
    ((v.current_entropy).2).data_lattice
      = v.data_lattice ++
          List.replicate
            (if v.data_lattice.length ≤ v.velocity then
              v.velocity + 16 - v.data_lattice.length
            else 0) 0 ∧
    (v.set_entropy_level n).data_lattice
      = (v.data_lattice ++
          List.replicate
            (if v.data_lattice.length ≤ v.velocity then
              v.velocity + 16 - v.data_lattice.length
            else 0) 0).set v.velocity n := by
  refine ⟨rfl, ?_, ?_, ?_, ?_⟩
  · rw [current_entropy_snd, check_and_expand_lattice]
    simp only [List.length_append, List.length_replicate]
    split <;> omega
  · simp only [Vessel.set_entropy_level]
    rw [List.length_set, check_and_expand_lattice]
    simp only [List.length_append, List.length_replicate]
    split <;> omega
  · rw [current_entropy_snd, check_and_expand_lattice]
  · simp only [Vessel.set_entropy_level]
    rw [check_and_expand_lattice, check_and_expand_velocity]

/-- C10: runes specified as having "no agent effect" still read the
current cell first, so with the pointer at or past the tape length,
SteerLeft and SteerRight (whose freshly expanded cell is 0, hence stable,
so no rotation fires) and Output leave heading, pointer, position and
the input stream unchanged and keep every existing cell, while growing
the tape with zero cells to exactly `pointer + 16`. -/
theorem silent_runes_grow_tape (v : Vessel) (stdin : List Nat)
    (h : v.data_lattice.length ≤ v.velocity) :
    (Rune.SteerLeft.act_on v stdin
        = ({ v with data_lattice :=
              v.data_lattice ++
                List.replicate (v.velocity + 16 - v.data_lattice.length) 0 },
            stdin)) ∧
    (Rune.SteerRight.act_on v stdin
        = ({ v with data_lattice :=
              v.data_lattice ++
                List.replicate (v.velocity + 16 - v.data_lattice.length) 0 },
            stdin)) ∧
    (Rune.Output.act_on v stdin
        = ({ v with data_lattice :=
              v.data_lattice ++
                List.replicate (v.velocity + 16 - v.data_lattice.length) 0 },
            stdin)) ∧
    (v.data_lattice ++
        List.replicate (v.velocity + 16 - v.data_lattice.length) 0).length
      = v.velocity + 16 := by
  have hstable : (v.current_entropy).1 = 0 := by
    show v.check_and_expand_data_lattice.data_lattice.getD
        v.check_and_expand_data_lattice.velocity 0 = 0
    rw [check_and_expand_velocity, check_and_expand_lattice, if_pos h]
    exact getD_append_replicate_zero _ _ _ h
  have hexp := check_and_expand_eq_of_le v h
  refine ⟨?_, ?_, ?_, by simp; omega⟩
  · simp only [Rune.act_on, is_stable_fst, is_stable_snd, hstable]
    simpa using hexp
  · simp only [Rune.act_on, is_stable_fst, is_stable_snd, hstable]
    simpa using hexp
  · simp only [Rune.act_on, current_entropy_snd]
    rw [hexp]

/-- C10 witness: the Output rune on a vessel whose pointer 20 is past its
16-cell lattice grows the lattice to 36 cells and changes nothing else. -/
theorem silent_runes_grow_tape_witness :
    Rune.Output.act_on vesselTwenty []
      = ({ vesselTwenty with data_lattice :=
            vesselTwenty.data_lattice ++ List.replicate 20 0 },
          []) :=
  (silent_runes_grow_tape vesselTwenty [] (by decide)).2.2.1

/-- C9 witness: the ThrustUp 1x1 grid; the initial state's projection
failure is the row-0 underflow, not a missing heading. -/
theorem heading_never_none_witness :
    ((Vessel.new 0 0 (cosmosUp.get 0 0)).direction = Direction.Up ∧
        (Vessel.new 0 0 (cosmosUp.get 0 0)).y = 0) ∨
      ((Vessel.new 0 0 (cosmosUp.get 0 0)).direction = Direction.Left ∧
        (Vessel.new 0 0 (cosmosUp.get 0 0)).x = 0) :=
  (heading_never_none cosmosUp [] 0 (Vessel.new 0 0 (cosmosUp.get 0 0), [])
      (by decide) rfl).2
    "y is less than 1, the vessel was going to travel out of the cosmos." rfl

end Velo
